import Mathlib

/-!
Shallow embedding of `dipy/core/dti.py` (single-file DTI core): design-matrix
construction, the weighted-least-squares tensor fit, eigen decomposition
post-processing, and the ADC/FA scalar maps, together with theorems settling
the specification claims about them.

Numbers are modelled by `ℚ` (exact arithmetic standing in for numpy floats).
External numerical primitives that the source calls but does not define
(`np.linalg.pinv`, `np.exp`, `np.log`, `np.linalg.eig`, `np.sqrt`) are
parameters of the embedding, so every theorem quantifies over them.
Matrices are lists of rows; a gradient table is the list of its g columns.
-/

/-- One gradient direction: a column of the (3, g) gradient table. -/
abbrev Vec3 : Type := ℚ × ℚ × ℚ

/-- Lines 305-311 of `design_matrix`: the seven entries of one row of `B`
before the final negation: the six quadratic monomials (cross terms doubled,
each multiplied by the b-value) and the all-ones intercept column. -/
def designRow (g : Vec3) (b : ℚ) : List ℚ :=
  [g.1 * g.1 * 1 * b, g.2.1 * g.2.1 * 1 * b, g.2.2 * g.2.2 * 1 * b,
   g.1 * g.2.1 * 2 * b, g.1 * g.2.2 * 2 * b, g.2.1 * g.2.2 * 2 * b, 1]

/-- Lines 302-303 of `design_matrix`: `G = np.zeros((3, np.size(bval)))` and
`G[:, np.where(bval > 0)] = gtab`, i.e. a zero-padded gradient table whose
columns at positive-b-value indices are taken from `gtab` in index order. -/
def reconstructG (gtab : List Vec3) (bval : List ℚ) : List Vec3 :=
  match bval with
  | [] => []
  | b :: bs =>
    if 0 < b then
      match gtab with
      | [] => ((0, 0, 0) : Vec3) :: reconstructG [] bs
      | g :: gs => g :: reconstructG gs bs
    else ((0, 0, 0) : Vec3) :: reconstructG gtab bs

/-- Lines 293-314, `design_matrix(gtab, bval)`.  Returns the g×7 matrix
`-B` together with a flag recording whether the size-mismatch diagnostic of
lines 297-300 was printed (the print itself is an external effect; the flag
models that the diagnostic was emitted).  The source tests
`gtab.shape[1] != bval.shape[0]`; on mismatch it rebuilds the gradient table
with `reconstructG`.  The whole matrix, intercept column included, is negated
by the final `return -B`. -/
def design_matrix (gtab : List Vec3) (bval : List ℚ) : List (List ℚ) × Bool :=
  if gtab.length = bval.length then
    (((gtab.zip bval).map fun gb => (designRow gb.1 gb.2).map Neg.neg), false)
  else
    ((((reconstructG gtab bval).zip bval).map fun gb =>
        (designRow gb.1 gb.2).map Neg.neg), true)

/-- Line 268 of `decompose_tensor`: `eigenvals[eigenvals < 0] = 0`
applied to a single entry. -/
def clampNeg (x : ℚ) : ℚ := if x < 0 then 0 else x

/-- Lines 264-265: `eigenvals.sort()` (ascending) followed by
`eigenvals[::-1]`, i.e. the descending sort of the eigenvalue list. -/
def sortDesc (l : List ℚ) : List ℚ := (l.insertionSort (· ≤ ·)).reverse

/-- Line 263: `eigenvals.argsort()[::-1]`, the index permutation that numpy
uses to reorder the eigenvector columns; `argsort` sorts the index range by
the corresponding eigenvalue and the slice reverses it. -/
def argsortDesc (l : List ℚ) : List ℕ :=
  ((List.range l.length).insertionSort
    (fun i j => l.getD i 0 ≤ l.getD j 0)).reverse

/-- Lines 245-254 of `decompose_tensor`: the symmetric 3×3 tensor built from
the six unique components `(Dxx, Dyy, Dzz, Dxy, Dxz, Dyz)`. -/
def buildTensor (D : List ℚ) : List (List ℚ) :=
  [[D.getD 0 0, D.getD 3 0, D.getD 4 0],
   [D.getD 3 0, D.getD 1 0, D.getD 5 0],
   [D.getD 4 0, D.getD 5 0, D.getD 2 0]]

/-- Lines 231-274, `decompose_tensor(D, scale)`.  `eig` is the external
`np.linalg.eig` primitive: it returns the eigenvalue list and the list of
eigenvector columns of the (symmetric) input matrix.  The defensive check of
lines 259-260 raises when the decomposition does not yield exactly three
eigenvalues (the source appends `str(eigenvals)` to the message; that repr is
elided here).  Then the eigenvalues are sorted descending, the eigenvector
columns are permuted by the same `argsort`-based index order, negative
eigenvalues are clamped to zero, and the 12-vector
`concatenate((eigenvals, eigenvecs.T.flat)) * scale` is returned
(`eigenvecs.T.flat` is the concatenation of the columns). -/
def decompose_tensor (eig : List (List ℚ) → List ℚ × List (List ℚ))
    (D : List ℚ) (scale : ℚ) : Except String (List ℚ) :=
  let t := buildTensor D
  let eigenvals := (eig t).1
  let eigenvecs := (eig t).2
  if eigenvals.length ≠ 3 then .error "not 3 eigenvalues" else
  let perm := argsortDesc eigenvals
  let vecsSorted := perm.map (fun k => eigenvecs.getD k [0, 0, 0])
  let valsSorted := (sortDesc eigenvals).map clampNeg
  .ok (((valsSorted ++ vecsSorted.flatten)).map (· * scale))

/-- Dot product of two equal-length coefficient lists (`np.dot` on 1-D). -/
def dotL (a b : List ℚ) : ℚ := (List.zipWith (· * ·) a b).sum

/-- Matrix × vector product (`np.dot` of a 2-D and a 1-D array). -/
def matVec (M : List (List ℚ)) (v : List ℚ) : List ℚ := M.map (fun r => dotL r v)

/-- Column `j` of a row-major matrix. -/
def colOf (M : List (List ℚ)) (j : ℕ) : List ℚ := M.map (·.getD j 0)

/-- Matrix × matrix product (`np.dot` on 2-D arrays). -/
def matMul (A B : List (List ℚ)) : List (List ℚ) :=
  A.map (fun r => (List.range (B.headD []).length).map (fun j => dotL r (colOf B j)))

/-- Line 160 of `WLS_fit`: `data[data <= 0] = 1` applied to a single entry
(only reached when the input is a plain ndarray). -/
def clampPos (x : ℚ) : ℚ := if x ≤ 0 then 1 else x

/-- Elementwise clamping of a whole (voxel × gradient) signal matrix,
the in-place effect of line 160. -/
def clampData (d : List (List ℚ)) : List (List ℚ) := d.map (·.map clampPos)

/-- Truncation of a rational toward zero, the rounding used by a C-style
integer cast such as `np.int16(x)`. -/
def truncQ (x : ℚ) : ℤ := if 0 ≤ x then ⌊x⌋ else ⌈x⌉

/-- The `np.int16` cast of lines 165 and 184: truncation toward zero wrapped
into the signed 16-bit range. -/
def int16q (x : ℚ) : ℚ := (((truncQ x + 32768).emod 65536) - 32768 : ℤ)

/-- The external numerical primitives `WLS_fit`/`decompose_tensor` call into:
`np.linalg.pinv`, `np.exp`, `np.log` (all elementwise or matrix-level numpy
routines) and `np.linalg.eig`. -/
structure NumPrims where
  pinv : List (List ℚ) → List (List ℚ)
  exp : ℚ → ℚ
  log : ℚ → ℚ
  eig : List (List ℚ) → List ℚ × List (List ℚ)

/-- The state of `WLS_fit` after lines 149-190: the (possibly clamped)
signal matrix, the quantization scale, the design matrix `B`, and the OLS
log-signal estimate `log_s_ols`. -/
structure WLSPre where
  data1 : List (List ℚ)
  scale : ℚ
  B : List (List ℚ)
  ols : List (List ℚ)

/-- Lines 149-190 of `WLS_fit`.  `isNd` is `isinstance(data, np.ndarray)`:
for a plain ndarray the signal is clamped in place (`data[data <= 0] = 1`),
the log-signal is quantized to `int16` with scale `1/1000`, and `log_s_ols`
is quantized again at line 184; for a `MaskedView` (the path the `tensor`
class takes) the raw data is used with scale 1 and no clamping.
`log_s_ols = np.dot(log_s, np.dot(B, pinv(B)))` is the OLS projection.
`data` is the already-flattened (voxel × gradient) signal matrix (the 4-D
branch of lines 151-154 only reshapes). -/
def wlsPre (p : NumPrims) (isNd : Bool) (data : List (List ℚ))
    (gtab : List Vec3) (bval : List ℚ) : WLSPre :=
  let data1 := if isNd then clampData data else data
  let log_s := if isNd then data1.map (·.map (fun x => int16q (p.log x * 1000)))
               else data1.map (·.map p.log)
  let scale : ℚ := if isNd then 1 / 1000 else 1
  let B := (design_matrix gtab bval).1
  let ols0 := matMul log_s (matMul B (p.pinv B))
  ⟨data1, scale, B, if isNd then ols0.map (·.map int16q) else ols0⟩

/-- Lines 206-210 of `WLS_fit`, the per-voxel solve for voxel `i`:
`w = np.exp(log_s_ols[i, :] * scale)` and
`D = np.dot(np.linalg.pinv(B * w), w.ravel() * np.log(data[:, i]) * scale)`.
`B * w` scales row `k` of `B` by `w[k]` (numpy row-wise broadcast).
Note the signal vector the source feeds to the solve is `data[:, i]` — the
i-th COLUMN of the (voxel × gradient) matrix, i.e. the gradient-i entry of
every voxel — not row `i` as the adjacent comment `#log_s[i,:]` intends. -/
def voxelD (p : NumPrims) (B : List (List ℚ)) (data1 : List (List ℚ))
    (scale : ℚ) (olsRow : List ℚ) (i : ℕ) : List ℚ :=
  let w := olsRow.map (fun x => p.exp (x * scale))
  let Bw := List.zipWith (fun wi row => row.map (wi * ·)) w B
  let colI := data1.map (·.getD i 0)
  matVec (p.pinv Bw) ((List.zipWith (· * ·) w (colI.map p.log)).map (· * scale))

/-- What the specification states the per-voxel solve uses: voxel `i`'s own
g-length signal row `data[i, :]`.  This definition follows the spec's words
("signal_i is voxel i's own g-length signal vector") and exists only to be
compared against `voxelD`, which is the translation of the source. -/
def specVoxelD (p : NumPrims) (B : List (List ℚ)) (data1 : List (List ℚ))
    (scale : ℚ) (olsRow : List ℚ) (i : ℕ) : List ℚ :=
  let w := olsRow.map (fun x => p.exp (x * scale))
  let Bw := List.zipWith (fun wi row => row.map (wi * ·)) w B
  let rowI := data1.getD i []
  matVec (p.pinv Bw) ((List.zipWith (· * ·) w (rowI.map p.log)).map (· * scale))

/-- Line 213 of `WLS_fit`: the per-voxel eigen decomposition
`decompose_tensor(D[0:6], scale=1)` of the solve for voxel `i`. -/
def voxelStep (p : NumPrims) (pre : WLSPre) (i : ℕ) : Except String (List ℚ) :=
  decompose_tensor p.eig ((voxelD p pre.B pre.data1 pre.scale (pre.ols.getD i []) i).take 6) 1

/-- The Python `for` loop of lines 193-213 threaded through exceptions: the
body runs voxel by voxel and the first raised exception aborts the whole
loop (there is no `try/except` in the source). -/
def loopVoxels (f : ℕ → Except String (List ℚ)) : List ℕ → Except String (List (List ℚ))
  | [] => .ok []
  | i :: is =>
    match f i with
    | .error e => .error e
    | .ok r =>
      match loopVoxels f is with
      | .error e => .error e
      | .ok rs => .ok (r :: rs)

/-- Lines 123-228, `WLS_fit(data, gtab, bval)`: the OLS weighting pass
followed by the per-voxel WLS solve and eigen decomposition; returns the
per-voxel 12-vectors (`eig_decomp`, one row per voxel) and the design
matrix `B`. -/
def WLS_fit (p : NumPrims) (isNd : Bool) (data : List (List ℚ))
    (gtab : List Vec3) (bval : List ℚ) :
    Except String (List (List ℚ) × List (List ℚ)) :=
  let pre := wlsPre p isNd data gtab bval
  (loopVoxels (voxelStep p pre) (List.range pre.ols.length)).map (fun rows => (rows, pre.B))

/-- A 3-D volume (e.g. a mask, or one channel of the signal volume). -/
abbrev Vol3 : Type := List (List (List ℚ))

/-- A 4-D signal volume: X × Y × Z voxels, each a g-length signal list. -/
abbrev Vol4 : Type := List (List (List (List ℚ)))

/-- The first three components of `data.shape` for a 4-D volume
(`dims[0:3]` at line 73). -/
def shape4to3 (d : Vol4) : ℕ × ℕ × ℕ :=
  (d.length, (d.getD 0 []).length, ((d.getD 0 []).getD 0 []).length)

/-- `mask.shape` for a 3-D mask volume. -/
def shape3 (m : Vol3) : ℕ × ℕ × ℕ :=
  (m.length, (m.getD 0 []).length, ((m.getD 0 []).getD 0 []).length)

/-- Lines 69-70 of `tensor.__init__` seen from the data side:
`mask = data[:,:,:,0]` is a numpy VIEW of the b0 channel, so
`mask[mask < thresh] = 0` writes through it into the caller's array.  This
is the resulting state of `data`: every voxel whose b0 entry (index 0) was
below `thresh` has that entry overwritten with 0; all other entries are
untouched.  `threshVox` is the effect on one voxel's signal list. -/
def threshVox (thresh : ℚ) (vox : List ℚ) : List ℚ :=
  if vox.getD 0 0 < thresh then vox.set 0 0 else vox

/-- The volume-wide effect of lines 69-70 (see `threshVox`). -/
def applyThresh (thresh : ℚ) (data : Vol4) : Vol4 :=
  data.map (·.map (·.map (threshVox thresh)))

/-- The b0 channel `data[:,:,:,0]` of a 4-D volume. -/
def b0Channel (data : Vol4) : Vol3 :=
  data.map (·.map (·.map (·.getD 0 0)))

/-- Lines 67-74 of `tensor.__init__`: when no mask is given, the mask is the
(thresholded, mutated in place) b0 channel of `data`; then
`dims[0:3] != mask.shape` raises `ValueError` (under the 2010-era numpy this
file targets, `ndarray == None` is `False` and `ndarray != None` is `True`,
so the shape check runs for a supplied mask as well as for the derived one).
Returns the mask together with the state of the caller's data array. -/
def initMaskStage (data : Vol4) (maskOpt : Option Vol3) (thresh : ℚ) :
    Except String (Vol3 × Vol4) :=
  match maskOpt with
  | none =>
    let dataMut := applyThresh thresh data
    let mask := b0Channel dataMut
    if shape4to3 dataMut ≠ shape3 mask then
      .error "Data image and mask MUST have same 3D volume shape!"
    else .ok (mask, dataMut)
  | some mask =>
    if shape4to3 data ≠ shape3 mask then
      .error "Data image and mask MUST have same 3D volume shape!"
    else .ok (mask, data)

/-- Line 86: `data[mask4d > 0]` re-packed voxel-wise — the compact
(voxel × gradient) list of the signal rows of the voxels whose mask value is
positive, in row-major (C) order.  This is the view the `MaskedView`
collaborator gives `WLS_fit`. -/
def flattenMasked (mask : Vol3) (data : Vol4) : List (List ℚ) :=
  ((mask.zip data).map (fun pl =>
    ((pl.1.zip pl.2).map (fun pr =>
      ((pr.1.zip pr.2).filterMap (fun pv =>
        if 0 < pv.1 then some pv.2 else none)))).flatten)).flatten

/-- Lines 106-108, `tensor.calc_adc`:
`(evals[...,0] + evals[...,1] + evals[...,2]) / 3` computed volume-wise. -/
def calc_adc (evals : List (ℚ × ℚ × ℚ)) : List ℚ :=
  let ev1 := evals.map (fun e => e.1)
  let ev2 := evals.map (fun e => e.2.1)
  let ev3 := evals.map (fun e => e.2.2)
  (List.zipWith (· + ·) (List.zipWith (· + ·) ev1 ev2) ev3).map (· / 3)

/-- Lines 110-120, `tensor.calc_fa`, computed volume-wise with the external
`np.sqrt` primitive `sq`: `fa = np.sqrt(1.5 * ((ev1-adc)^2 + (ev2-adc)^2 +
(ev3-adc)^2) / ss_ev)` followed by the masked overwrite `fa[ss_ev == 0] = 0`.
(The `np.zeros` at line 117 is dead: it is overwritten by the next line.) -/
def calc_fa (sq : ℚ → ℚ) (evals : List (ℚ × ℚ × ℚ)) : List ℚ :=
  let adc := calc_adc evals
  let ev1 := evals.map (fun e => e.1)
  let ev2 := evals.map (fun e => e.2.1)
  let ev3 := evals.map (fun e => e.2.2)
  let ss_ev := List.zipWith (· + ·)
    (List.zipWith (· + ·) (ev1.map (· ^ 2)) (ev2.map (· ^ 2))) (ev3.map (· ^ 2))
  let numer := List.zipWith (· + ·)
    (List.zipWith (· + ·) ((List.zipWith (· - ·) ev1 adc).map (· ^ 2))
      ((List.zipWith (· - ·) ev2 adc).map (· ^ 2)))
    ((List.zipWith (· - ·) ev3 adc).map (· ^ 2))
  let fa := (List.zipWith (· / ·) (numer.map (fun x => 3 / 2 * x)) ss_ev).map sq
  List.zipWith (fun s v => if s = 0 then 0 else v) ss_ev fa

/-- The fitted tensor object: the cached per-voxel fields `tensor.__init__`
stores (lines 92-98), kept at the compact masked-voxel-list level (the
re-expansion of the compact list to the 3-D layout is the external
`MaskedView` collaborator). -/
structure TensorObj where
  evals : List (ℚ × ℚ × ℚ)
  evecs : List (List ℚ)
  prime_evec : List (List ℚ)
  adc : List ℚ
  fa : List ℚ

/-- Lines 67-98, `tensor.__init__(data, grad_table, b_values, mask, thresh)`.
`fit` abstracts the call to `WLS_fit` at line 88 (instantiated with
`WLS_fit p false · gtab bval` in the real pipeline); it runs only after the
mask/shape stage succeeds.  The per-voxel slices 0:3 / 3:12 / 3:6 of the
packed eigen rows populate `evals`, `evecs`, `prime_evec`, and ADC/FA are
computed eagerly from `evals` (lines 96-98). -/
def tensor_init
    (fit : List (List ℚ) → Except String (List (List ℚ) × List (List ℚ)))
    (sq : ℚ → ℚ) (data : Vol4) (maskOpt : Option Vol3) (thresh : ℚ) :
    Except String TensorObj :=
  match initMaskStage data maskOpt thresh with
  | .error e => .error e
  | .ok (mask, dataMut) =>
    match fit (flattenMasked mask dataMut) with
    | .error e => .error e
    | .ok rowsB =>
      let rows := rowsB.1
      let evals := rows.map (fun r => (r.getD 0 0, r.getD 1 0, r.getD 2 0))
      .ok { evals := evals
            evecs := rows.map (fun r => (r.drop 3).take 9)
            prime_evec := rows.map (fun r => (r.drop 3).take 3)
            adc := calc_adc evals
            fa := calc_fa sq evals }

/-- What claim C3 asserts of one packed eigen result `out` produced from the
raw eigenvalue list `vals` and eigenvector-column list `vecs`: the first
three entries are sorted descending and non-negative, and one single index
permutation `p` of `0,1,2` both sorts the eigenvalues descending and reorders
the eigenvector columns, each eigenvalue clamped at zero (`clampNeg`). -/
def DecomposeSpec (vals : List ℚ) (vecs : List (List ℚ)) (out : List ℚ) : Prop :=
  List.Sorted (· ≥ ·) (out.take 3) ∧
  (∀ x ∈ out.take 3, 0 ≤ x) ∧
  ∃ p : List ℕ, List.Perm p (List.range 3) ∧
    sortDesc vals = p.map (fun k => vals.getD k 0) ∧
    out = p.map (fun k => clampNeg (vals.getD k 0)) ++
      (p.map (fun k => vecs.getD k [0, 0, 0])).flatten

/-- The behaviour of `np.linalg.eig` on the diagonal matrices that appear in
the concrete instances below: the eigenvalues are the diagonal entries and
the eigenvectors the standard basis (as columns). -/
def diagEig (t : List (List ℚ)) : List ℚ × List (List ℚ) :=
  ([(t.getD 0 []).getD 0 0, (t.getD 1 []).getD 1 0, (t.getD 2 []).getD 2 0],
   [[1, 0, 0], [0, 1, 0], [0, 0, 1]])

/-- A degenerate eigendecomposition primitive returning no eigenvalues at
all, exercising the defensive check of lines 259-260. -/
def noEig (_ : List (List ℚ)) : List ℚ × List (List ℚ) := ([], [])

/-- Concrete primitives used to evaluate the per-voxel solve of claim C1. -/
def pC1 : NumPrims := ⟨fun _ => [[1, 1]], fun x => x, fun x => x, diagEig⟩

/-- Concrete primitives used to evaluate the fit of claim C7. -/
def pC7 : NumPrims := ⟨fun _ => [[-1]], Neg.neg, fun x => x, diagEig⟩

/-- Concrete primitives whose eigendecomposition always fails, for claim C8. -/
def pC8 : NumPrims := ⟨fun _ => [[1]], fun x => x, fun x => x, noEig⟩

theorem map_getD_range (l : List ℚ) :
    (List.range l.length).map (fun k => l.getD k 0) = l := by
  induction l with
  | nil => rfl
  | cons a t ih =>
    rw [List.length_cons, List.range_succ_eq_map, List.map_cons, List.map_map]
    simp only [Function.comp_def, List.getD_cons_succ, List.getD_cons_zero]
    rw [ih]

theorem map_getD_insertionSortRange (l : List ℚ) :
    ((List.range l.length).insertionSort
        (fun i j => l.getD i 0 ≤ l.getD j 0)).map (fun k => l.getD k 0) =
      l.insertionSort (· ≤ ·) := by
  haveI h1 : IsTotal ℕ (fun i j => l.getD i 0 ≤ l.getD j 0) :=
    ⟨fun a b => le_total _ _⟩
  haveI h2 : IsTrans ℕ (fun i j => l.getD i 0 ≤ l.getD j 0) :=
    ⟨fun _ _ _ hab hbc => le_trans hab hbc⟩
  apply List.eq_of_perm_of_sorted (r := (· ≤ ·))
  · refine ((List.perm_insertionSort _ _).map _).trans ?_
    rw [map_getD_range]
    exact (List.perm_insertionSort (· ≤ ·) l).symm
  · exact List.Pairwise.map _ (fun _ _ h => h)
      (List.sorted_insertionSort _ _)
  · exact List.sorted_insertionSort _ _

theorem sortDesc_eq_map_argsortDesc (l : List ℚ) :
    sortDesc l = (argsortDesc l).map (fun k => l.getD k 0) := by
  unfold sortDesc argsortDesc
  rw [List.map_reverse, map_getD_insertionSortRange]

theorem argsortDesc_perm (l : List ℚ) :
    List.Perm (argsortDesc l) (List.range l.length) :=
  (List.reverse_perm _).trans (List.perm_insertionSort _ _)

theorem argsortDesc_length (l : List ℚ) : (argsortDesc l).length = l.length := by
  simpa using (argsortDesc_perm l).length_eq

theorem sortDesc_sorted (l : List ℚ) : List.Sorted (· ≥ ·) (sortDesc l) := by
  unfold sortDesc
  rw [List.Sorted, List.pairwise_reverse]
  exact (List.sorted_insertionSort (· ≤ ·) l).imp (fun h => h)

theorem sortDesc_length (l : List ℚ) : (sortDesc l).length = l.length := by
  simp [sortDesc]

theorem clampNeg_mono {a b : ℚ} (h : b ≤ a) : clampNeg b ≤ clampNeg a := by
  unfold clampNeg
  split_ifs with h1 h2 <;> try linarith

theorem clampNeg_nonneg (x : ℚ) : 0 ≤ clampNeg x := by
  unfold clampNeg
  split_ifs with h <;> linarith

theorem sorted_map_clampNeg {l : List ℚ} (h : List.Sorted (· ≥ ·) l) :
    List.Sorted (· ≥ ·) (l.map clampNeg) :=
  List.Pairwise.map _ (fun _ _ hab => clampNeg_mono hab) h

/-- Claim C3: for every 6-component tensor input, a successful
`decompose_tensor` (at the `scale=1` the fit uses) returns a packed vector
whose first three entries — the eigenvalues — are sorted descending and all
non-negative (negatives are clamped to exactly 0), and a single index
permutation of `0,1,2` simultaneously produces the descending eigenvalue
order and the order of the eigenvector columns in the packed tail, i.e. the
columns are permuted to match their eigenvalues. -/
theorem claim_C3 (eig : List (List ℚ) → List ℚ × List (List ℚ)) (D : List ℚ)
    (out : List ℚ) (h : decompose_tensor eig D 1 = .ok out) :
    DecomposeSpec (eig (buildTensor D)).1 (eig (buildTensor D)).2 out := by
  simp only [decompose_tensor] at h
  by_cases hlen : (eig (buildTensor D)).1.length = 3
  · rw [if_neg (by simp [hlen])] at h
    simp only [mul_one, List.map_id', Except.ok.injEq] at h
    subst h
    have hcl : ((sortDesc (eig (buildTensor D)).1).map clampNeg).length = 3 := by
      rw [List.length_map, sortDesc_length, hlen]
    have htake : (((sortDesc (eig (buildTensor D)).1).map clampNeg) ++
        ((argsortDesc (eig (buildTensor D)).1).map
          (fun k => (eig (buildTensor D)).2.getD k [0, 0, 0])).flatten).take 3 =
        (sortDesc (eig (buildTensor D)).1).map clampNeg := by
      rw [← hcl]
      exact List.take_left _ _
    refine ⟨?_, ?_, argsortDesc (eig (buildTensor D)).1,
      hlen ▸ argsortDesc_perm (eig (buildTensor D)).1,
      sortDesc_eq_map_argsortDesc (eig (buildTensor D)).1, ?_⟩
    · rw [htake]
      exact sorted_map_clampNeg (sortDesc_sorted _)
    · intro x hx
      rw [htake] at hx
      obtain ⟨y, -, rfl⟩ := List.mem_map.mp hx
      exact clampNeg_nonneg y
    · rw [sortDesc_eq_map_argsortDesc, List.map_map]
      rfl
  · rw [if_pos (by simpa using hlen)] at h
    simp at h

/-- Witness for claim C3 at the concrete diagonal tensor
`(Dxx, Dyy, Dzz) = (1, 3, 2)`. -/
theorem claim_C3_witness :
    DecomposeSpec (diagEig (buildTensor [1, 3, 2, 0, 0, 0])).1
      (diagEig (buildTensor [1, 3, 2, 0, 0, 0])).2
      [3, 2, 1, 0, 1, 0, 0, 0, 1, 1, 0, 0] :=
  claim_C3 diagEig [1, 3, 2, 0, 0, 0] _
    (by norm_num [decompose_tensor, buildTensor, diagEig, argsortDesc, sortDesc,
      clampNeg, List.insertionSort, List.orderedInsert, List.getD])

theorem zipWith_map_same (f : ℚ → ℚ → ℚ) (g h : (ℚ × ℚ × ℚ) → ℚ)
    (l : List (ℚ × ℚ × ℚ)) :
    List.zipWith f (l.map g) (l.map h) = l.map (fun e => f (g e) (h e)) := by
  induction l with
  | nil => rfl
  | cons a t ih => simp [ih]

theorem calc_adc_eq_map (evals : List (ℚ × ℚ × ℚ)) :
    calc_adc evals = evals.map (fun e => (e.1 + e.2.1 + e.2.2) / 3) := by
  unfold calc_adc
  simp only [zipWith_map_same, List.map_map, Function.comp_def]

theorem calc_fa_eq_map (sq : ℚ → ℚ) (evals : List (ℚ × ℚ × ℚ)) :
    calc_fa sq evals = evals.map (fun e =>
      if e.1 ^ 2 + e.2.1 ^ 2 + e.2.2 ^ 2 = 0 then 0
      else sq (3 / 2 *
        ((e.1 - (e.1 + e.2.1 + e.2.2) / 3) ^ 2 +
         (e.2.1 - (e.1 + e.2.1 + e.2.2) / 3) ^ 2 +
         (e.2.2 - (e.1 + e.2.1 + e.2.2) / 3) ^ 2) /
        (e.1 ^ 2 + e.2.1 ^ 2 + e.2.2 ^ 2))) := by
  unfold calc_fa
  rw [calc_adc_eq_map]
  simp only [zipWith_map_same, List.map_map, Function.comp_def]

/-- Claim C5: the ADC accessor is exactly `(λ1 + λ2 + λ3) / 3` of each
voxel's own eigenvalue triple — the value at voxel `i` is a function of
`evals[i]` alone, so there is no cross-voxel dependency. -/
theorem claim_C5 (evals : List (ℚ × ℚ × ℚ)) (i : ℕ) :
    (calc_adc evals)[i]? = evals[i]?.map (fun e => (e.1 + e.2.1 + e.2.2) / 3) := by
  rw [calc_adc_eq_map]
  exact List.getElem?_map _ _ _

/-- Claim C4: the FA map is exactly
`sqrt(1.5 * ((λ1-ADC)^2 + (λ2-ADC)^2 + (λ3-ADC)^2) / (λ1^2+λ2^2+λ3^2))`
per voxel, and whenever `λ1^2+λ2^2+λ3^2 = 0` the returned FA value is
exactly `0` (the masked overwrite `fa[ss_ev == 0] = 0` replaces the
divide-by-zero entry, so no NaN survives in the output). -/
theorem claim_C4 (sq : ℚ → ℚ) (evals : List (ℚ × ℚ × ℚ)) (i : ℕ) :
    (calc_fa sq evals)[i]? = evals[i]?.map (fun e =>
      if e.1 ^ 2 + e.2.1 ^ 2 + e.2.2 ^ 2 = 0 then 0
      else sq (3 / 2 *
        ((e.1 - (e.1 + e.2.1 + e.2.2) / 3) ^ 2 +
         (e.2.1 - (e.1 + e.2.1 + e.2.2) / 3) ^ 2 +
         (e.2.2 - (e.1 + e.2.1 + e.2.2) / 3) ^ 2) /
        (e.1 ^ 2 + e.2.1 ^ 2 + e.2.2 ^ 2))) := by
  rw [calc_fa_eq_map]
  exact List.getElem?_map _ _ _

/-- Counterexample to claim C2 as stated: the design matrix's 7th column is
not all-ones; `return -B` negates the intercept column too, so at the
concrete input `gtab = [(1,0,0)]`, `bval = [1]` the entry in column 6 is
`-1`, not `1`. -/
theorem claim_C2_counterexample :
    ((design_matrix [((1 : ℚ), 0, 0)] [1]).1.getD 0 []).getD 6 0 = -1 ∧
    ((design_matrix [((1 : ℚ), 0, 0)] [1]).1.getD 0 []).getD 6 0 ≠ 1 := by
  norm_num [design_matrix, designRow, List.getD]

/-- Claim C2 as amended: for every gradient table and b-value vector of
matching length, row `j` of the returned design matrix is the negation of
the six quadratic monomials of direction `g = gtab[j]` and `b = bval[j]`
(diagonal terms `g_k^2 b`, cross terms doubled) followed by `-1` — i.e. the
7th column is exactly all MINUS ones, the ones column being negated together
with the rest of the matrix by `return -B`. -/
theorem claim_C2_amended (gtab : List Vec3) (bval : List ℚ)
    (h : gtab.length = bval.length) (j : ℕ) (g : Vec3) (b : ℚ)
    (hg : gtab[j]? = some g) (hb : bval[j]? = some b) :
    (design_matrix gtab bval).1[j]? = some
      [-(g.1 ^ 2 * b), -(g.2.1 ^ 2 * b), -(g.2.2 ^ 2 * b),
       -(2 * g.1 * g.2.1 * b), -(2 * g.1 * g.2.2 * b), -(2 * g.2.1 * g.2.2 * b),
       -1] := by
  have hz : (gtab.zip bval)[j]? = some (g, b) := by
    rw [List.getElem?_zip_eq_some]
    exact ⟨hg, hb⟩
  unfold design_matrix
  rw [if_pos h, List.getElem?_map, hz]
  simp only [Option.map_some', Option.some.injEq, designRow, List.map_cons,
    List.map_nil]
  simp only [List.cons.injEq, and_true]
  and_intros <;> ring

/-- Witness for the amended claim C2 at `gtab = [(1,2,3)]`, `bval = [10]`. -/
theorem claim_C2_amended_witness :
    (design_matrix [((1 : ℚ), 2, 3)] [10]).1[0]? =
      (some [-10, -40, -90, -40, -60, -120, -1] : Option (List ℚ)) := by
  have h := claim_C2_amended [((1 : ℚ), 2, 3)] [10] rfl 0 ((1 : ℚ), 2, 3) 10 rfl rfl
  rw [h]
  norm_num

theorem reconstructG_getElem (bval : List ℚ) (gtab : List Vec3) (j : ℕ)
    (hc : bval.countP (fun b => decide (0 < b)) = gtab.length)
    (hj : j < bval.length) :
    (reconstructG gtab bval)[j]? =
      if 0 < bval.getD j 0 then
        gtab[(bval.take j).countP (fun b => decide (0 < b))]?
      else some ((0, 0, 0) : Vec3) := by
  induction bval generalizing gtab j with
  | nil => exact absurd hj (by simp)
  | cons b bs ih =>
    by_cases hb : 0 < b
    · match gtab with
      | [] =>
        rw [List.countP_cons] at hc
        simp [hb] at hc
      | g :: gs =>
        rw [List.countP_cons] at hc
        simp only [hb, decide_True, if_true, List.length_cons] at hc
        have hc2 : bs.countP (fun b => decide (0 < b)) = gs.length := by omega
        match j with
        | 0 => simp [reconstructG, hb]
        | j + 1 =>
          have hj2 : j < bs.length := by simpa using hj
          have hrec := ih gs j hc2 hj2
          simp only [reconstructG, if_pos hb, List.getElem?_cons_succ, hrec,
            List.getD_cons_succ, List.take_succ_cons, List.countP_cons, hb,
            decide_True, eq_self_iff_true, if_true]
    · have hc2 : bs.countP (fun b => decide (0 < b)) = gtab.length := by
        rw [List.countP_cons] at hc
        simpa [hb] using hc
      match j with
      | 0 => simp [reconstructG, hb]
      | j + 1 =>
        have hj2 : j < bs.length := by simpa using hj
        have hrec := ih gtab j hc2 hj2
        simp only [reconstructG, if_neg hb, List.getElem?_cons_succ, hrec,
          List.getD_cons_succ, List.take_succ_cons, List.countP_cons, hb,
          decide_False, Bool.false_eq_true, if_false, Nat.add_zero]

/-- Claim C9: when the gradient table's column count differs from the
b-value count, `design_matrix` does not fail; it emits the diagnostic
(the returned flag is `true`), rebuilds a zero-padded gradient table whose
column at every positive-b-value index `j` is the next unused column of the
given table (the one at position `count of positive b-values before j`) and
whose other columns are zero, and assembles the design matrix from that
reconstructed table.  The hypothesis `hc` states that the given table has
exactly one column per positive b-value, which is what the numpy fancy
assignment `G[:, np.where(bval > 0)] = gtab` requires to broadcast. -/
theorem claim_C9 (gtab : List Vec3) (bval : List ℚ)
    (hne : gtab.length ≠ bval.length)
    (hc : bval.countP (fun b => decide (0 < b)) = gtab.length) :
    (design_matrix gtab bval).2 = true ∧
    (design_matrix gtab bval).1 =
      ((reconstructG gtab bval).zip bval).map
        (fun gb => (designRow gb.1 gb.2).map Neg.neg) ∧
    ∀ j, j < bval.length →
      (reconstructG gtab bval)[j]? =
        if 0 < bval.getD j 0 then
          gtab[(bval.take j).countP (fun b => decide (0 < b))]?
        else some ((0, 0, 0) : Vec3) := by
  refine ⟨?_, ?_, fun j hj => reconstructG_getElem bval gtab j hc hj⟩
  · simp [design_matrix, hne]
  · simp [design_matrix, hne]

/-- Witness for claim C9 at `gtab = [(1,0,0)]`, `bval = [0, 1000]` (one b0
kept in the b-values but stripped from the gradient table): the diagnostic
flag is set, the reconstructed column 0 is zero and column 1 is the given
gradient. -/
theorem claim_C9_witness :
    (design_matrix [((1 : ℚ), 0, 0)] [0, 1000]).2 = true ∧
    (reconstructG [((1 : ℚ), 0, 0)] [0, 1000])[0]? = some ((0 : ℚ), 0, 0) ∧
    (reconstructG [((1 : ℚ), 0, 0)] [0, 1000])[1]? = some ((1 : ℚ), 0, 0) := by
  have h := claim_C9 [((1 : ℚ), 0, 0)] [0, 1000] (by decide)
    (by norm_num [List.countP, List.countP.go])
  refine ⟨h.1, ?_, ?_⟩
  · exact (h.2.2 0 (by norm_num)).trans (by norm_num [List.getD])
  · exact (h.2.2 1 (by norm_num)).trans
      (by norm_num [List.getD, List.countP, List.countP.go])

theorem clampPos_idem (x : ℚ) : clampPos (clampPos x) = clampPos x := by
  unfold clampPos
  split_ifs <;> rfl

theorem clampData_idem (d : List (List ℚ)) :
    clampData (clampData d) = clampData d := by
  have hfun : (fun x => clampPos (clampPos x)) = clampPos := funext clampPos_idem
  simp [clampData, List.map_map, Function.comp_def, hfun]

/-- Claim C7 as amended: the clamp-to-1 of non-positive signal values
happens only on the plain-ndarray branch (`isinstance(data, np.ndarray)`,
line 159): there the in-place `data[data <= 0] = 1` runs before any
logarithm, so the whole fit is invariant under pre-clamping the input.  For
a `MaskedView` input — the already-flattened masked voxel list the `tensor`
class passes in — no clamping happens (see the counterexample theorem for
that branch). -/
theorem claim_C7_amended (p : NumPrims) (data : List (List ℚ))
    (gtab : List Vec3) (bval : List ℚ) :
    WLS_fit p true data gtab bval = WLS_fit p true (clampData data) gtab bval := by
  have hpre : wlsPre p true data gtab bval = wlsPre p true (clampData data) gtab bval := by
    simp [wlsPre, clampData_idem]
  unfold WLS_fit
  rw [hpre]

/-- Counterexample to claim C7 as stated: on the masked-voxel-list branch
(`isNd = false`, the branch `tensor.__init__` actually takes) the signal is
NOT clamped before the logarithms of lines 168 and 210: with a signal matrix
containing the non-positive value `-5`, the fit differs from the fit of the
clamped signal, which could not happen if every non-positive value were
replaced by 1 before being used. -/
theorem claim_C7_counterexample :
    WLS_fit pC7 false [[-5]] [((1 : ℚ), 0, 0)] [1] ≠
      WLS_fit pC7 false (clampData [[-5]]) [((1 : ℚ), 0, 0)] [1] := by
  have h1 : WLS_fit pC7 false [[-5]] [((1 : ℚ), 0, 0)] [1] =
      .ok ([[25, 0, 0, 1, 0, 0, 0, 0, 1, 0, 1, 0]],
        [[-1, 0, 0, 0, 0, 0, -1]]) := by
    norm_num [WLS_fit, wlsPre, voxelStep, voxelD, decompose_tensor, buildTensor,
      diagEig, argsortDesc, sortDesc, clampNeg, design_matrix, designRow,
      matMul, matVec, dotL, colOf, pC7, loopVoxels, List.insertionSort,
      List.orderedInsert, List.getD, List.range_succ, Except.map]
  have h2 : WLS_fit pC7 false (clampData [[-5]]) [((1 : ℚ), 0, 0)] [1] =
      .ok ([[1, 0, 0, 1, 0, 0, 0, 0, 1, 0, 1, 0]],
        [[-1, 0, 0, 0, 0, 0, -1]]) := by
    norm_num [WLS_fit, wlsPre, voxelStep, voxelD, decompose_tensor, buildTensor,
      diagEig, argsortDesc, sortDesc, clampNeg, design_matrix, designRow,
      matMul, matVec, dotL, colOf, pC7, loopVoxels, List.insertionSort,
      List.orderedInsert, List.getD, List.range_succ, Except.map, clampData,
      clampPos]
  intro hEq
  rw [h1, h2] at hEq
  simp at hEq

/-- Claim C1 (code bug): at a concrete well-shaped input (2 voxels × 2
gradients, so `data[:, i]` and `data[i, :]` both exist), the per-voxel solve
of line 210 — which feeds `np.log(data[:, i])`, the COLUMN of gradient-i
entries across voxels — differs from the solve the claim (and the source's
own inline comment `#log_s[i,:]`) describes, which uses voxel i's own signal
row.  Here `data = [[1, 2], [3, 4]]`, `w = (1, 1)`, voxel `i = 0`: the code
contracts against column `(1, 3)` giving `D = [4]`, while the spec formula
contracts against row `(1, 2)` giving `D = [3]`. -/
theorem claim_C1_code_bug :
    voxelD pC1 (design_matrix [((1 : ℚ), 0, 0), (0, 1, 0)] [1, 1]).1
        [[1, 2], [3, 4]] 1 [1, 1] 0 = [4] ∧
    specVoxelD pC1 (design_matrix [((1 : ℚ), 0, 0), (0, 1, 0)] [1, 1]).1
        [[1, 2], [3, 4]] 1 [1, 1] 0 = [3] ∧
    voxelD pC1 (design_matrix [((1 : ℚ), 0, 0), (0, 1, 0)] [1, 1]).1
        [[1, 2], [3, 4]] 1 [1, 1] 0 ≠
      specVoxelD pC1 (design_matrix [((1 : ℚ), 0, 0), (0, 1, 0)] [1, 1]).1
        [[1, 2], [3, 4]] 1 [1, 1] 0 := by
  refine ⟨?_, ?_, ?_⟩ <;>
    norm_num [voxelD, specVoxelD, pC1, matVec, dotL, List.getD]

theorem loopVoxels_error (f : ℕ → Except String (List ℚ)) (l : List ℕ)
    (i : ℕ) (e : String) (hi : i ∈ l) (hf : f i = .error e) :
    ∃ m, loopVoxels f l = .error m := by
  induction l with
  | nil => cases hi
  | cons a t ih =>
    cases hfa : f a with
    | error m => exact ⟨m, by simp [loopVoxels, hfa]⟩
    | ok r =>
      rcases List.mem_cons.mp hi with rfl | hmem
      · rw [hfa] at hf
        cases hf
      · obtain ⟨m, hm⟩ := ih hmem
        exact ⟨m, by simp [loopVoxels, hfa, hm]⟩

/-- Claim C8: (1) whenever the eigendecomposition of a voxel's tensor does
not yield exactly three eigenvalues, `decompose_tensor` raises the
`ValueError` of lines 259-260; and (2) the per-voxel loop of `WLS_fit` has
no exception handler, so if the decomposition step of any in-range voxel
raises, the whole fit aborts with an error — no partial result is
returned. -/
theorem claim_C8 :
    (∀ (eig : List (List ℚ) → List ℚ × List (List ℚ)) (D : List ℚ) (scale : ℚ),
      (eig (buildTensor D)).1.length ≠ 3 →
      decompose_tensor eig D scale = .error "not 3 eigenvalues") ∧
    (∀ (p : NumPrims) (isNd : Bool) (data : List (List ℚ)) (gtab : List Vec3)
      (bval : List ℚ) (i : ℕ) (e : String),
      i < (wlsPre p isNd data gtab bval).ols.length →
      voxelStep p (wlsPre p isNd data gtab bval) i = .error e →
      ∃ m, WLS_fit p isNd data gtab bval = .error m) := by
  constructor
  · intro eig D scale h
    simp only [decompose_tensor]
    rw [if_pos h]
  · intro p isNd data gtab bval i e hi hstep
    obtain ⟨m, hm⟩ := loopVoxels_error (voxelStep p (wlsPre p isNd data gtab bval))
      (List.range (wlsPre p isNd data gtab bval).ols.length) i e
      (List.mem_range.mpr hi) hstep
    refine ⟨m, ?_⟩
    simp only [WLS_fit]
    rw [hm]
    rfl

/-- Witness for claim C8: a concrete decomposition with zero eigenvalues
errors, and a concrete one-voxel fit whose eigendecomposition fails aborts
the whole fit. -/
theorem claim_C8_witness :
    decompose_tensor noEig [1, 0, 0, 0, 0, 0] 1 = .error "not 3 eigenvalues" ∧
    ∃ m, WLS_fit pC8 false [[1]] [((1 : ℚ), 0, 0)] [1] = .error m := by
  constructor
  · exact claim_C8.1 noEig [1, 0, 0, 0, 0, 0] 1 (by norm_num [noEig])
  · exact claim_C8.2 pC8 false [[1]] [((1 : ℚ), 0, 0)] [1] 0 "not 3 eigenvalues"
      (by norm_num [wlsPre, pC8, matMul, dotL, colOf, design_matrix, designRow,
        List.getD, List.range_succ])
      (by norm_num [voxelStep, voxelD, decompose_tensor, buildTensor, noEig,
        pC8, wlsPre, matMul, matVec, dotL, colOf, design_matrix, designRow,
        List.getD, List.range_succ])

/-- Claim C6: constructing a `tensor` with an explicit mask whose spatial
shape differs from the first three data dimensions fails with the
shape-mismatch `ValueError` of lines 73-74 for EVERY possible fit function —
the check runs before `WLS_fit` is called, so the fit is never run. -/
theorem claim_C6
    (fit : List (List ℚ) → Except String (List (List ℚ) × List (List ℚ)))
    (sq : ℚ → ℚ) (data : Vol4) (mask : Vol3) (thresh : ℚ)
    (h : shape3 mask ≠ shape4to3 data) :
    tensor_init fit sq data (some mask) thresh =
      .error "Data image and mask MUST have same 3D volume shape!" := by
  have hcond : shape4to3 data ≠ shape3 mask := fun hEq => h hEq.symm
  simp [tensor_init, initMaskStage, hcond]

/-- Witness for claim C6: a 1×1×1×1 volume with an empty (0×0×0) mask fails
at construction, with a fit function that would happily return. -/
theorem claim_C6_witness :
    tensor_init (fun _ => .ok ([], [])) (fun x => x) [[[[1]]]] (some []) 5 =
      .error "Data image and mask MUST have same 3D volume shape!" :=
  claim_C6 (fun _ => .ok ([], [])) (fun x => x) [[[[1]]]] [] 5 (by decide)

theorem getD_map_d {α β : Type} (f : α → β) (d : α) (d2 : β) (hf : f d = d2)
    (l : List α) (n : ℕ) : (l.map f).getD n d2 = f (l.getD n d) := by
  subst hf
  exact List.getD_map l d f

theorem shape3_b0Channel (d : Vol4) : shape3 (b0Channel d) = shape4to3 d := by
  unfold shape3 shape4to3 b0Channel
  simp only [Prod.mk.injEq]
  refine ⟨by simp, ?_, ?_⟩
  · cases d with
    | nil => rfl
    | cons p ps => simp
  · cases d with
    | nil => rfl
    | cons p ps =>
      cases p with
      | nil => rfl
      | cons r rs => simp

/-- Claim C10 (frame effect): with no explicit mask, the derived mask is the
(thresholded) b0 channel of the caller's data and the thresholding writes
through the numpy view INTO the caller's array: after the mask stage, every
b0 entry (channel 0) that was below `thresh` is exactly 0 in the caller's
volume, entries at or above `thresh` are unchanged, all other channels are
untouched, and the derived mask's value at each voxel equals the mutated b0
entry.  The mutation is modelled by returning the post-construction state of
`data` (`applyThresh`). -/
theorem claim_C10 (data : Vol4) (thresh : ℚ) (x y z : ℕ) :
    initMaskStage data none thresh =
      .ok (b0Channel (applyThresh thresh data), applyThresh thresh data) ∧
    ((((applyThresh thresh data).getD x []).getD y []).getD z [])[0]? =
      ((((data.getD x []).getD y []).getD z [])[0]?).map
        (fun v => if v < thresh then 0 else v) ∧
    (∀ k : ℕ,
      ((((applyThresh thresh data).getD x []).getD y []).getD z [])[k + 1]? =
        (((data.getD x []).getD y []).getD z [])[k + 1]?) ∧
    (((b0Channel (applyThresh thresh data)).getD x []).getD y []).getD z 0 =
      ((((applyThresh thresh data).getD x []).getD y []).getD z []).getD 0 0 := by
  have e1 : (applyThresh thresh data).getD x [] =
      (data.getD x []).map (·.map (threshVox thresh)) := by
    unfold applyThresh
    exact getD_map_d
      (fun p => p.map (fun r => r.map (threshVox thresh))) [] [] rfl data x
  have e2 : ((data.getD x []).map (·.map (threshVox thresh))).getD y [] =
      ((data.getD x []).getD y []).map (threshVox thresh) :=
    getD_map_d (fun r => r.map (threshVox thresh)) [] [] rfl (data.getD x []) y
  have e3 : (((data.getD x []).getD y []).map (threshVox thresh)).getD z [] =
      threshVox thresh (((data.getD x []).getD y []).getD z []) :=
    getD_map_d (threshVox thresh) [] []
      (by unfold threshVox; split <;> rfl) ((data.getD x []).getD y []) z
  have hvox : (((applyThresh thresh data).getD x []).getD y []).getD z [] =
      threshVox thresh (((data.getD x []).getD y []).getD z []) := by
    rw [e1, e2, e3]
  have e4 : (b0Channel (applyThresh thresh data)).getD x [] =
      ((applyThresh thresh data).getD x []).map (·.map (·.getD 0 0)) := by
    unfold b0Channel
    exact getD_map_d (fun p => p.map (fun r => r.map (fun vox => vox.getD 0 0)))
      [] [] rfl (applyThresh thresh data) x
  have e5 : (((applyThresh thresh data).getD x []).map
        (·.map (·.getD 0 0))).getD y [] =
      (((applyThresh thresh data).getD x []).getD y []).map (·.getD 0 0) :=
    getD_map_d (fun r => r.map (fun vox => vox.getD 0 0)) [] [] rfl
      ((applyThresh thresh data).getD x []) y
  have e6 : ((((applyThresh thresh data).getD x []).getD y []).map
        (·.getD 0 0)).getD z 0 =
      ((((applyThresh thresh data).getD x []).getD y []).getD z []).getD 0 0 :=
    getD_map_d (fun vox => vox.getD 0 0) [] 0 rfl
      (((applyThresh thresh data).getD x []).getD y []) z
  refine ⟨?_, ?_, ?_, ?_⟩
  · simp [initMaskStage, shape3_b0Channel]
  · rw [hvox]
    rcases hv : ((data.getD x []).getD y []).getD z [] with - | ⟨a, rest⟩
    · unfold threshVox
      split <;> simp
    · unfold threshVox
      simp only [List.getD_cons_zero]
      by_cases hc : a < thresh
      · simp [hc]
      · simp [hc]
  · intro k
    rw [hvox]
    rcases hv : ((data.getD x []).getD y []).getD z [] with - | ⟨a, rest⟩
    · unfold threshVox
      split <;> simp
    · unfold threshVox
      simp only [List.getD_cons_zero]
      by_cases hc : a < thresh
      · simp [hc]
      · simp [hc]
  · rw [e4, e5, e6]
